import Mathlib

/-!
# Verification of the KoalaqVision matching and registration core

This file gives a shallow embedding, in Lean 4, of the correctness-sensitive
parts of the KoalaqVision visual-retrieval service, translated directly from
the Python source:

* result grouping and top-k ranking (`FaceService.match_face`,
  `ObjectService.match_image`),
* threshold filtering of engine candidates (`VectorService.search_similar`),
* the liveness decision rule (`MiniFASNetLiveness.predict_with_threshold`),
* the multi-scale face-detection fallback (`FacePipeline.preprocess`),
* the liveness crop-box computation (`MiniFASNetLiveness._get_new_box`),
* the model-change reconciliation (`ModelChangeDetector.reset_collection_if_needed`),
* the vector-store insert gate (`VectorService.add_image`) and
  record deletion (`VectorService.delete_by_image_id`),
* the registration flows (`ObjectService.add_image`, `FaceService.add_face`).

Python floats are modelled as rationals (`ℚ`); Python's `round(x, 2)` is
modelled as exact round-half-to-even at two decimal places.  Stateful
operations (the vector collection, the configuration snapshot file, the set of
physical files) are modelled by explicit state passing.
-/

namespace KoalaqVision

/-! ## Python rounding

`round(x, 2)` in Python rounds to the nearest multiple of 1/100, ties to
even.  We model it exactly over `ℚ`. -/

/-- Round a rational to the nearest integer, ties to the even integer
(Python's `round(x)` semantics). -/
def roundHalfEven (q : ℚ) : ℤ :=
  if q - ⌊q⌋ < 1/2 then ⌊q⌋
  else if 1/2 < q - ⌊q⌋ then ⌊q⌋ + 1
  else if 2 ∣ ⌊q⌋ then ⌊q⌋ else ⌊q⌋ + 1

/-- Python's `round(x, 2)`: round to two decimal places, ties to even. -/
def pyRound2 (q : ℚ) : ℚ := (roundHalfEven (q * 100) : ℚ) / 100

/-! ## Search results and grouping

`VectorService.search_similar` returns a list of `ImageSearchResponse`
objects; `FaceService.match_face` / `ObjectService.match_image` group them by
entity id.  A `SearchResult` carries the fields the grouping step reads. -/

/-- One search hit, as consumed by the grouping step (`ImageSearchResponse`
restricted to the fields the grouping reads). -/
structure SearchResult where
  image_id : String
  object_id : String
  similarity : ℚ
deriving DecidableEq

/-- One per-entity group, as built by the grouping loop in
`FaceService.match_face` step 6 (identically `ObjectService.match_image`
step 6, with `object_id`/`images` in place of `person_id`/`faces`). -/
structure MatchGroup where
  person_id : String
  faces : List (String × ℚ)
  max_similarity : ℚ
deriving DecidableEq

/-- The body of the grouping loop once the group for the result's entity id
exists: append the member (with similarity rounded to two decimals, as in
`round(result.similarity, 2)`) and update `max_similarity` when
`result.similarity > group["max_similarity"]`. -/
def updateGroup (g : MatchGroup) (r : SearchResult) : MatchGroup :=
  { g with
    faces := g.faces ++ [(r.image_id, pyRound2 r.similarity)]
    max_similarity :=
      if g.max_similarity < r.similarity then pyRound2 r.similarity
      else g.max_similarity }

/-- A freshly created group (`{"person_id": ..., "faces": [], "max_similarity": 0}`). -/
def emptyGroup (pid : String) : MatchGroup := ⟨pid, [], 0⟩

/-- One iteration of the grouping loop: the Python `dict` keyed by entity id
is modelled as an association list in insertion order. -/
def insertResult (acc : List MatchGroup) (r : SearchResult) : List MatchGroup :=
  if acc.any fun g => g.person_id == r.object_id then
    acc.map fun g => if g.person_id == r.object_id then updateGroup g r else g
  else
    acc ++ [updateGroup (emptyGroup r.object_id) r]

/-- The grouping step (step 6 of `match_face` / `match_image`): fold the flat
result list into per-entity groups. -/
def groupResults (rs : List SearchResult) : List MatchGroup :=
  rs.foldl insertResult []

/-- The sort key of step 7: descending `max_similarity`. -/
def groupLe (a b : MatchGroup) : Bool := decide (b.max_similarity ≤ a.max_similarity)

/-- Steps 6–7 of `match_face` / `match_image`: group, sort descending by
`max_similarity` (Python's `sorted` is a stable merge sort) and keep the
first `top_k` groups. -/
def matchGroups (rs : List SearchResult) (top_k : ℕ) : List MatchGroup :=
  ((groupResults rs).mergeSort groupLe).take top_k

/-- The similarities of the input results belonging to one entity id. -/
def simsOf (rs : List SearchResult) (pid : String) : List ℚ :=
  (rs.filter fun r => r.object_id == pid).map (·.similarity)

/-- All member entries of a group list, in order. -/
def allFaces (gs : List MatchGroup) : List (String × ℚ) :=
  (gs.map (·.faces)).flatten

/-- The entity ids of a group list, in order. -/
def groupIds (gs : List MatchGroup) : List String := gs.map (·.person_id)

/-- The `max_similarity` fields of a group list, in order. -/
def maxSims (gs : List MatchGroup) : List ℚ := gs.map (·.max_similarity)

/-! ## Threshold filtering (`VectorService.search_similar`)

The engine returns a candidate list (nearest first).  The service skips every
candidate whose similarity is below the threshold (`if certainty < threshold:
continue`) and finally truncates to `top_k` (`responses = responses[:top_k]`). -/

/-- Client-side post-processing of a fixed engine candidate list in
`VectorService.search_similar`: keep candidates with similarity at least the
threshold, then truncate to `top_k`. -/
def searchSimilar (candidates : List SearchResult) (top_k : ℕ) (threshold : ℚ) :
    List SearchResult :=
  (candidates.filter fun r => decide (threshold ≤ r.similarity)).take top_k

/-! ## Liveness decision rule (`MiniFASNetLiveness.predict_with_threshold`) -/

/-- The rejection reason recorded by `predict_with_threshold`; each
constructor carries the score and the threshold the source interpolates into
the reason string. -/
inductive RejectReason where
  | realTooLow (score thr : ℚ)
  | paperTooHigh (score thr : ℚ)
  | screenTooHigh (score thr : ℚ)
deriving DecidableEq

/-- The decision-relevant output of `predict_with_threshold`. -/
structure LivenessVerdict where
  is_real : Bool
  reject_reason : Option RejectReason
deriving DecidableEq

/-- The strict decision rule of `predict_with_threshold`: accept iff
`real_score > threshold` and `paper_score < paper_reject_threshold` and
`screen_score < screen_reject_threshold`; on rejection record which guard
fired, in source order. -/
def predictWithThreshold (real_score paper_score screen_score : ℚ)
    (threshold paper_reject_threshold screen_reject_threshold : ℚ) :
    LivenessVerdict :=
  let is_real := decide (threshold < real_score) &&
    decide (paper_score < paper_reject_threshold) &&
    decide (screen_score < screen_reject_threshold)
  let reject_reason :=
    if is_real then none
    else if real_score ≤ threshold then
      some (RejectReason.realTooLow real_score threshold)
    else if paper_reject_threshold ≤ paper_score then
      some (RejectReason.paperTooHigh paper_score paper_reject_threshold)
    else if screen_reject_threshold ≤ screen_score then
      some (RejectReason.screenTooHigh screen_score screen_reject_threshold)
    else none
  ⟨is_real, reject_reason⟩

/-! ## Multi-scale detection fallback (`FacePipeline.preprocess`)

The detectors themselves are external collaborators; the pipeline logic is a
function of their outputs.  `Face` is kept abstract. -/

/-- The detection part of `FacePipeline.preprocess`: run the primary detector;
if it finds zero faces and a fallback detector is configured, retry with it
and record the fallback size as the size used; fail if still no face,
otherwise return the first candidate face together with the detection size
used. -/
def facePreprocess {Face : Type} (primaryFaces : List Face)
    (fallbackFaces : Option (List Face)) (det_size det_size_fallback : ℕ × ℕ) :
    Option (Face × (ℕ × ℕ)) :=
  let step :=
    if primaryFaces.length = 0 then
      match fallbackFaces with
      | some fb => (fb, det_size_fallback)
      | none => (primaryFaces, det_size)
    else (primaryFaces, det_size)
  match step with
  | ([], _) => none
  | (f :: _, used) => some (f, used)

/-! ## Vector store insert gate (`VectorService.add_image`)

The collection is modelled as the list of stored records in insertion order;
`WeaviateClient.get_vector_dimension` samples the first stored object's
vector (returning `None` for an empty collection). -/

/-- A stored entity record (the fields of the Weaviate data object relevant
to the insert gate and deletion). -/
structure StoredRecord where
  image_id : String
  object_id : String
  vector : List ℚ
  img_url : Option String
  img_object_url : Option String
deriving DecidableEq

/-- `WeaviateClient.get_vector_dimension`: the length of the first stored
object's vector, or `none` when the collection is empty. -/
def getVectorDimension (coll : List StoredRecord) : Option ℕ :=
  match coll with
  | [] => none
  | r :: _ => some r.vector.length

/-- The validation errors `VectorService.add_image` can raise before
touching the store. -/
inductive AddImageError where
  | emptyVector
  | dimensionMismatch (dbDim curDim : ℕ)
deriving DecidableEq

/-- `VectorService.add_image`: validate the vector (non-empty; the NaN/Inf
scan is vacuous over `ℚ`), compare its length with the collection's
established dimension, raise on mismatch, otherwise insert.  The returned
pair is (collection after the call, raised error if any); a raise leaves the
collection untouched. -/
def addImage (coll : List StoredRecord) (rec : StoredRecord) :
    List StoredRecord × Option AddImageError :=
  if rec.vector.isEmpty then (coll, some AddImageError.emptyVector)
  else
    match getVectorDimension coll with
    | some dbDim =>
      if dbDim ≠ rec.vector.length then
        (coll, some (AddImageError.dimensionMismatch dbDim rec.vector.length))
      else (coll ++ [rec], none)
    | none => (coll ++ [rec], none)

/-! ## Record deletion (`VectorService.delete_by_image_id`)

Physical files are modelled as the list of existing file paths. -/

/-- `_url_to_path` inside `VectorService._delete_physical_files`: map a
public `/images/...` URL to the `data/...` file path. -/
def urlToPath (url : String) : Option String :=
  if url.startsWith "/images/" then some ("data/" ++ url.drop 8) else none

/-- Delete one physical file if its URL resolves and the file exists
(`unlink` failures are logged and swallowed, so the model just removes the
path when present). -/
def deleteOneFile (files : List String) (url : Option String) : List String :=
  match url with
  | none => files
  | some u =>
    match urlToPath u with
    | none => files
    | some p => files.filter fun f => ¬ (f = p)

/-- `VectorService._delete_physical_files`: delete the original image and the
object/face image. -/
def deletePhysicalFiles (files : List String)
    (img_url img_object_url : Option String) : List String :=
  deleteOneFile (deleteOneFile files img_url) img_object_url

/-- `VectorService.get_by_image_id`: the first stored record with the given
`image_id`, if any. -/
def getByImageId (coll : List StoredRecord) (image_id : String) :
    Option StoredRecord :=
  coll.find? fun r => r.image_id == image_id

/-- `VectorService.delete_by_image_id`: look the record up first; if absent
return `False` without touching anything; otherwise delete the physical
files, then the vector record, and return `True`.  Result: (returned flag,
collection after, files after). -/
def deleteByImageId (coll : List StoredRecord) (files : List String)
    (image_id : String) : Bool × List StoredRecord × List String :=
  match getByImageId coll image_id with
  | none => (false, coll, files)
  | some r =>
    let files' := deletePhysicalFiles files r.img_url r.img_object_url
    let coll' := coll.eraseP fun q => q.image_id == image_id
    (true, coll', files')

/-! ## Model-change reconciliation (`ModelChangeDetector`)

The per-mode configuration payload (backend name, model paths, ...) is only
ever compared for equality and stored, so it is kept abstract.  The snapshot
file maps each mode to its saved configuration; a missing file or missing /
empty mode entry is `none`. -/

/-- The two mutually exclusive application modes. -/
inductive AppMode where
  | object
  | face
deriving DecidableEq

/-- The persisted `model_config.json`, one optional snapshot per mode
(`none` models a missing/empty entry, which is falsy in the source). -/
structure ConfigFile (Config : Type) where
  objectConfig : Option Config
  faceConfig : Option Config
deriving DecidableEq

/-- `old_config.get(self.app_mode, {})`. -/
def getSaved {Config : Type} (cf : ConfigFile Config) (m : AppMode) :
    Option Config :=
  match m with
  | AppMode.object => cf.objectConfig
  | AppMode.face => cf.faceConfig

/-- `ModelChangeDetector.save_current_config`: overwrite the active mode's
entry, keeping the other mode's entry (other top-level keys are dropped,
which the model has none of). -/
def setSaved {Config : Type} (cf : ConfigFile Config) (m : AppMode)
    (c : Config) : ConfigFile Config :=
  match m with
  | AppMode.object => { cf with objectConfig := some c }
  | AppMode.face => { cf with faceConfig := some c }

/-- `ModelChangeDetector.check_model_change`: a reset is needed iff a
non-empty snapshot for the active mode exists and differs from the current
configuration. -/
def checkModelChange {Config : Type} [DecidableEq Config] (m : AppMode)
    (current : Config) (cf : ConfigFile Config) : Bool :=
  match getSaved cf m with
  | some old => decide (old ≠ current)
  | none => false

/-- The detector's view of mutable state: the snapshot file and the vector
collection's contents. -/
structure DetectorState (Config : Type) where
  configFile : ConfigFile Config
  collection : List StoredRecord
deriving DecidableEq

/-- `ModelChangeDetector.reset_collection_if_needed`: if the configuration
changed, drop and recreate the collection (emptying it) and persist the new
snapshot, returning `True`; otherwise persist the snapshot anyway and return
`False`. -/
def resetCollectionIfNeeded {Config : Type} [DecidableEq Config] (m : AppMode)
    (current : Config) (s : DetectorState Config) :
    Bool × DetectorState Config :=
  if checkModelChange m current s.configFile then
    (true, ⟨setSaved s.configFile m current, []⟩)
  else
    (false, ⟨setSaved s.configFile m current, s.collection⟩)

/-! ## Registration flows (`ObjectService.add_image`, `FaceService.add_face`)

The collaborator steps (download, segmentation, detection, liveness, feature
extraction) are modelled by their outcomes; the flow functions record which
persistence effects happen and which error, if any, aborts the request. -/

/-- A persistence side effect of a registration request. -/
inductive PersistEffect where
  | savedOriginal
  | savedProcessed
  | insertedVector
deriving DecidableEq

/-- A step 1–3 failure of a registration request. -/
inductive RegError where
  | loadFailed
  | noSubject
  | livenessRejected
  | extractFailed
deriving DecidableEq

/-- The observable outcome of a registration request: the persistence
effects performed, in order, and the error that aborted it (if any). -/
structure RegOutcome where
  effects : List PersistEffect
  error : Option RegError
deriving DecidableEq

/-- `ObjectService.add_image`: acquire the image; if `save_files`, save the
original, run background removal and (when it yields an image) save the
processed image; then extract features (from the original image) and, on
success, insert the vector.  Note the file saves happen before feature
extraction. -/
def addImageObjectFlow (loadOk : Bool) (segmented : Option Unit)
    (features : Option (List ℚ)) (save_files : Bool) : RegOutcome :=
  if ¬ loadOk then ⟨[], some RegError.loadFailed⟩
  else
    let effs :=
      if save_files then
        PersistEffect.savedOriginal ::
          (match segmented with
           | some _ => [PersistEffect.savedProcessed]
           | none => [])
      else []
    match features with
    | none => ⟨effs, some RegError.extractFailed⟩
    | some _ => ⟨effs ++ [PersistEffect.insertedVector], none⟩

/-- `FaceService.add_face`: acquire the image, detect the face, check
liveness (`none` = not run, `some passed`), extract features — any failure
raises before the save/insert block — then save the original and the face
crop (if `save_files`) and insert the vector. -/
def addFaceFlow (loadOk : Bool) (faceDetected : Bool)
    (liveness : Option Bool) (features : Option (List ℚ))
    (save_files : Bool) : RegOutcome :=
  if ¬ loadOk then ⟨[], some RegError.loadFailed⟩
  else if ¬ faceDetected then ⟨[], some RegError.noSubject⟩
  else if liveness = some false then ⟨[], some RegError.livenessRejected⟩
  else
    match features with
    | none => ⟨[], some RegError.extractFailed⟩
    | some _ =>
      let effs :=
        if save_files then
          [PersistEffect.savedOriginal, PersistEffect.savedProcessed]
        else []
      ⟨effs ++ [PersistEffect.insertedVector], none⟩

/-! ## Liveness crop box (`MiniFASNetLiveness._get_new_box`) -/

/-- Python's `int(...)` on a rational: truncation toward zero. -/
def truncToInt (q : ℚ) : ℤ := if q < 0 then -⌊-q⌋ else ⌊q⌋

/-- `if left_top < 0: right_bottom -= left_top; left_top = 0` — shift the
interval right when it overflows the low edge. -/
def shiftLow (p : ℚ × ℚ) : ℚ × ℚ :=
  if p.1 < 0 then (0, p.2 - p.1) else p

/-- `if right_bottom > src-1: left_top -= right_bottom-src+1;
right_bottom = src-1` — shift the interval left when it overflows the high
edge (`bound` is `src - 1`). -/
def shiftHigh (bound : ℚ) (p : ℚ × ℚ) : ℚ × ℚ :=
  if p.2 > bound then (p.1 - (p.2 - bound), bound) else p

/-- `MiniFASNetLiveness._get_new_box`: clamp the crop-expansion scale to the
image, expand the `[x, y, w, h]` face box about its center, then shift each
overflowing side back inside `[0, src-1]` (low edges first, as in the
source), finally truncating to `int`.  Returns
`(left_top_x, left_top_y, right_bottom_x, right_bottom_y)`. -/
def getNewBox (src_w src_h : ℤ) (x y box_w box_h scale : ℚ) :
    ℤ × ℤ × ℤ × ℤ :=
  let scale1 := min ((src_h - 1 : ℚ) / box_h) (min ((src_w - 1 : ℚ) / box_w) scale)
  let new_width := box_w * scale1
  let new_height := box_h * scale1
  let center_x := box_w / 2 + x
  let center_y := box_h / 2 + y
  let px := shiftHigh ((src_w : ℚ) - 1)
    (shiftLow (center_x - new_width / 2, center_x + new_width / 2))
  let qy := shiftHigh ((src_h : ℚ) - 1)
    (shiftLow (center_y - new_height / 2, center_y + new_height / 2))
  (truncToInt px.1, truncToInt qy.1, truncToInt px.2, truncToInt qy.2)

/-! ## C4: liveness strict AND -/

/-- C4: the liveness ensemble accepts as real iff `real_score > threshold`
and `paper_score < paper_reject_threshold` and
`screen_score < screen_reject_threshold`; when `real_score` clears the
threshold but `paper_score` is at or above its reject threshold the result
is rejected and the reported reason cites the paper threshold. -/
theorem liveness_strict_and (real_score paper_score screen_score t pr sr : ℚ) :
    ((predictWithThreshold real_score paper_score screen_score t pr sr).is_real = true ↔
      (t < real_score ∧ paper_score < pr ∧ screen_score < sr)) ∧
    (t < real_score → pr ≤ paper_score →
      (predictWithThreshold real_score paper_score screen_score t pr sr).is_real = false ∧
      (predictWithThreshold real_score paper_score screen_score t pr sr).reject_reason =
        some (RejectReason.paperTooHigh paper_score pr)) := by
  constructor
  · simp [predictWithThreshold, and_assoc]
  · intro h1 h2
    have hn : ¬ paper_score < pr := not_lt.mpr h2
    have hn2 : ¬ real_score ≤ t := not_le.mpr h1
    constructor
    · simp [predictWithThreshold, hn]
    · simp [predictWithThreshold, hn, hn2, h2]

/-- Witness for C4 at `real = 0.7 > 0.6 = threshold`,
`paper = 0.5 ≥ 0.3 = paper_reject_threshold`. -/
theorem liveness_strict_and_witness :
    (predictWithThreshold (7/10) (1/2) (1/10) (6/10) (3/10) (3/10)).is_real = false ∧
    (predictWithThreshold (7/10) (1/2) (1/10) (6/10) (3/10) (3/10)).reject_reason =
      some (RejectReason.paperTooHigh (1/2) (3/10)) :=
  (liveness_strict_and (7/10) (1/2) (1/10) (6/10) (3/10) (3/10)).2
    (by norm_num) (by norm_num)

/-! ## C6: multi-scale detection fallback -/

/-- C6: when the primary detector finds zero faces and the fallback detector
finds at least one, `FacePipeline.preprocess` returns the fallback
detector's first candidate, with the detection size used being the fallback
size; when the primary detector finds a face, its first candidate and the
primary size are used. -/
theorem multiscale_fallback (Face : Type) (g : Face) (gs : List Face)
    (f : Face) (fs : List Face) (fb : Option (List Face))
    (primary_size fallback_size : ℕ × ℕ) :
    facePreprocess ([] : List Face) (some (g :: gs)) primary_size fallback_size =
      some (g, fallback_size) ∧
    facePreprocess (f :: fs) fb primary_size fallback_size =
      some (f, primary_size) := by
  constructor <;> simp [facePreprocess]

/-! ## C3: dimension-consistency gate -/

/-- C3: inserting a (non-empty) vector whose length differs from the
established dimension of a non-empty collection raises a dimension-mismatch
error naming both dimensions and leaves the collection unchanged; when the
lengths agree the insert proceeds. -/
theorem dimension_invariant (rec r0 : StoredRecord) (rest : List StoredRecord) :
    (rec.vector ≠ [] → r0.vector.length ≠ rec.vector.length →
      addImage (r0 :: rest) rec =
        (r0 :: rest,
         some (AddImageError.dimensionMismatch r0.vector.length rec.vector.length))) ∧
    (r0.vector ≠ [] → r0.vector.length = rec.vector.length →
      addImage (r0 :: rest) rec = ((r0 :: rest) ++ [rec], none)) := by
  constructor
  · intro hne hdim
    simp [addImage, getVectorDimension, List.isEmpty_iff, hne, hdim]
  · intro hr0 hdim
    have hne : rec.vector ≠ [] := by
      intro h
      rw [h] at hdim
      simp at hdim
      exact hr0 hdim
    simp [addImage, getVectorDimension, List.isEmpty_iff, hne, hdim]

/-- Witness for C3: a 2-vector collection rejects a 3-vector (collection
unchanged, both dimensions reported) and accepts another 2-vector. -/
theorem dimension_invariant_witness :
    addImage [⟨"a", "X", [1, 2], none, none⟩] ⟨"b", "Y", [1, 2, 3], none, none⟩ =
      ([⟨"a", "X", [1, 2], none, none⟩],
       some (AddImageError.dimensionMismatch 2 3)) ∧
    addImage [⟨"a", "X", [1, 2], none, none⟩] ⟨"c", "Z", [4, 5], none, none⟩ =
      ([⟨"a", "X", [1, 2], none, none⟩, ⟨"c", "Z", [4, 5], none, none⟩], none) :=
  ⟨(dimension_invariant ⟨"b", "Y", [1, 2, 3], none, none⟩
      ⟨"a", "X", [1, 2], none, none⟩ []).1 (by simp) (by simp),
   (dimension_invariant ⟨"c", "Z", [4, 5], none, none⟩
      ⟨"a", "X", [1, 2], none, none⟩ []).2 (by simp) (by simp)⟩

/-! ## C7: model-change reconciliation -/

/-- C7: at startup, a saved snapshot for the active mode differing from the
current configuration clears the collection and persists the new snapshot
(returning `true`); an unchanged snapshot, or no snapshot at all, leaves the
collection untouched while still persisting the snapshot (returning
`false`); in every case the active mode's persisted snapshot afterwards is
the current configuration. -/
theorem model_change_reconciliation {Config : Type} [DecidableEq Config]
    (m : AppMode) (current : Config) (s : DetectorState Config) :
    (∀ old, getSaved s.configFile m = some old → old ≠ current →
      resetCollectionIfNeeded m current s =
        (true, ⟨setSaved s.configFile m current, []⟩)) ∧
    (getSaved s.configFile m = some current →
      resetCollectionIfNeeded m current s =
        (false, ⟨setSaved s.configFile m current, s.collection⟩)) ∧
    (getSaved s.configFile m = none →
      resetCollectionIfNeeded m current s =
        (false, ⟨setSaved s.configFile m current, s.collection⟩)) ∧
    getSaved (resetCollectionIfNeeded m current s).2.configFile m = some current := by
  have hset : getSaved (setSaved s.configFile m current) m = some current := by
    cases m <;> simp [getSaved, setSaved]
  refine ⟨?_, ?_, ?_, ?_⟩
  · intro old hold hne
    simp [resetCollectionIfNeeded, checkModelChange, hold, hne]
  · intro hold
    simp [resetCollectionIfNeeded, checkModelChange, hold]
  · intro hold
    simp [resetCollectionIfNeeded, checkModelChange, hold]
  · rw [resetCollectionIfNeeded]
    by_cases hc : checkModelChange m current s.configFile = true <;>
      simp [hc, hset]

/-- Witness for C7: in face mode, a changed snapshot (2 ≠ 1) clears the
collection; an unchanged snapshot leaves it in place. -/
theorem model_change_reconciliation_witness :
    resetCollectionIfNeeded AppMode.face (1 : ℕ)
        ⟨⟨none, some 2⟩, [⟨"a", "X", [], none, none⟩]⟩ =
      (true, ⟨⟨none, some 1⟩, []⟩) ∧
    resetCollectionIfNeeded AppMode.face (1 : ℕ)
        ⟨⟨none, some 1⟩, [⟨"a", "X", [], none, none⟩]⟩ =
      (false, ⟨⟨none, some 1⟩, [⟨"a", "X", [], none, none⟩]⟩) :=
  ⟨(model_change_reconciliation AppMode.face 1
      ⟨⟨none, some 2⟩, [⟨"a", "X", [], none, none⟩]⟩).1 2 rfl (by decide),
   (model_change_reconciliation AppMode.face 1
      ⟨⟨none, some 1⟩, [⟨"a", "X", [], none, none⟩]⟩).2.1 rfl⟩

/-! ## C10: deletion of a missing image id -/

/-- C10: when no record carries the requested `image_id`,
`delete_by_image_id` returns `False` and neither the collection nor any
physical file is touched (the not-found check precedes any unlink). -/
theorem delete_missing_id (coll : List StoredRecord) (files : List String)
    (image_id : String) (h : ∀ r ∈ coll, r.image_id ≠ image_id) :
    deleteByImageId coll files image_id = (false, coll, files) := by
  have hfind : getByImageId coll image_id = none := by
    rw [getByImageId, List.find?_eq_none]
    intro r hr
    simpa using h r hr
  simp [deleteByImageId, hfind]

/-- Witness for C10 on a one-record collection and an unknown id. -/
theorem delete_missing_id_witness :
    deleteByImageId [⟨"a", "X", [], some "/images/upload/a.jpg", none⟩]
        ["data/upload/a.jpg"] "zzz" =
      (false, [⟨"a", "X", [], some "/images/upload/a.jpg", none⟩],
       ["data/upload/a.jpg"]) :=
  delete_missing_id _ _ _ (by simp)

/-! ## C2: registration aborts before persistence (corrected)

In `ObjectService.add_image` the original (and processed) files are saved
before feature extraction, so a step-3 failure leaves files behind. -/

/-- C2, counterexample to the claim as stated: an object-mode registration
whose feature extraction fails (load OK, `save_files=True`) has already
persisted the original image, so a step 1–3 failure does not always abort
before any persistence. -/
theorem registration_persistence_cex :
    addImageObjectFlow true none none true =
      ⟨[PersistEffect.savedOriginal], some RegError.extractFailed⟩ ∧
    [PersistEffect.savedOriginal] ≠ ([] : List PersistEffect) := by
  constructor
  · rfl
  · simp

/-- C2, amended: in face mode any step 1–3 failure aborts before any
persistence; in object mode a step 1–3 failure still never inserts a vector
record (though files may already have been saved). -/
theorem registration_abort_amended :
    (∀ (loadOk faceDetected : Bool) (lv : Option Bool)
        (ft : Option (List ℚ)) (sf : Bool),
      (addFaceFlow loadOk faceDetected lv ft sf).error.isSome = true →
      (addFaceFlow loadOk faceDetected lv ft sf).effects = []) ∧
    (∀ (loadOk : Bool) (seg : Option Unit) (ft : Option (List ℚ)) (sf : Bool),
      (addImageObjectFlow loadOk seg ft sf).error.isSome = true →
      PersistEffect.insertedVector ∉ (addImageObjectFlow loadOk seg ft sf).effects) := by
  constructor
  · intro lo fd lv ft sf h
    cases lo <;> cases fd <;> rcases lv with _ | (_ | _) <;>
      rcases ft with _ | v <;> simp_all [addFaceFlow]
  · intro lo seg ft sf h
    cases lo <;> rcases seg with _ | u <;> rcases ft with _ | v <;> cases sf <;>
      simp_all [addImageObjectFlow]

/-- Witness for the amended C2: a face-mode no-subject failure persists
nothing; an object-mode extraction failure never inserted a vector. -/
theorem registration_abort_amended_witness :
    (addFaceFlow true false none none true).effects = [] ∧
    PersistEffect.insertedVector ∉ (addImageObjectFlow true none none true).effects :=
  ⟨registration_abort_amended.1 true false none none true rfl,
   registration_abort_amended.2 true none none true rfl⟩

/-! ## C5: threshold monotonicity -/

/-- On a candidate list sorted descending by similarity, the survivors of a
higher threshold are an initial segment of the survivors of a lower one. -/
theorem filter_ge_eq_append (c : List SearchResult) (t₁ t₂ : ℚ)
    (hsorted : c.Pairwise fun a b => b.similarity ≤ a.similarity)
    (ht : t₁ ≤ t₂) :
    ∃ s, (c.filter fun r => decide (t₁ ≤ r.similarity)) =
      (c.filter fun r => decide (t₂ ≤ r.similarity)) ++ s := by
  induction c with
  | nil => exact ⟨[], rfl⟩
  | cons a l ih =>
    rcases List.pairwise_cons.mp hsorted with ⟨ha, hl⟩
    by_cases h2 : t₂ ≤ a.similarity
    · have h1 : t₁ ≤ a.similarity := le_trans ht h2
      obtain ⟨s, hs⟩ := ih hl
      exact ⟨s, by simp [List.filter_cons, h1, h2, hs]⟩
    · have hnil : (l.filter fun r => decide (t₂ ≤ r.similarity)) = [] := by
        rw [List.filter_eq_nil_iff]
        intro r hr
        have hra := ha r hr
        have := not_le.mp h2
        simp only [decide_eq_true_eq]
        intro hcon
        linarith
      exact ⟨(a :: l).filter fun r => decide (t₁ ≤ r.similarity),
        by simp [List.filter_cons, h2, hnil]⟩

/-- C5: with the candidate list (sorted descending by similarity), `top_k`
and the filter fixed, raising the threshold from `t₁` to `t₂ ≥ t₁` yields a
subset of the results, and never more of them. -/
theorem threshold_monotonicity (c : List SearchResult) (k : ℕ) (t₁ t₂ : ℚ)
    (hsorted : c.Pairwise fun a b => b.similarity ≤ a.similarity)
    (ht : t₁ ≤ t₂) :
    searchSimilar c k t₂ ⊆ searchSimilar c k t₁ ∧
    (searchSimilar c k t₂).length ≤ (searchSimilar c k t₁).length := by
  obtain ⟨s, hs⟩ := filter_ge_eq_append c t₁ t₂ hsorted ht
  unfold searchSimilar
  rw [hs, List.take_append_eq_append_take]
  constructor
  · intro r hr
    exact List.mem_append_left _ hr
  · rw [List.length_append]
    exact Nat.le_add_right _ _

/-- Witness for C5: two sorted candidates, thresholds 0.5 ≤ 0.7, top 5. -/
theorem threshold_monotonicity_witness :
    searchSimilar [⟨"a", "X", 9/10⟩, ⟨"b", "Y", 6/10⟩] 5 (7/10) ⊆
      searchSimilar [⟨"a", "X", 9/10⟩, ⟨"b", "Y", 6/10⟩] 5 (1/2) ∧
    (searchSimilar [⟨"a", "X", 9/10⟩, ⟨"b", "Y", 6/10⟩] 5 (7/10)).length ≤
      (searchSimilar [⟨"a", "X", 9/10⟩, ⟨"b", "Y", 6/10⟩] 5 (1/2)).length :=
  threshold_monotonicity [⟨"a", "X", 9/10⟩, ⟨"b", "Y", 6/10⟩] 5 (1/2) (7/10)
    (by norm_num) (by norm_num)

/-! ## C8: top-k cap on returned groups -/

/-- C8: the returned group list never exceeds `top_k` groups; it is sorted
descending by `max_similarity`; together with the dropped tail it is exactly
the descending sort, which is a permutation of all groups; and every kept
group has `max_similarity` at least that of every dropped group. -/
theorem topk_cap (rs : List SearchResult) (k : ℕ) :
    (matchGroups rs k).length ≤ k ∧
    (matchGroups rs k).Pairwise (fun a b => b.max_similarity ≤ a.max_similarity) ∧
    matchGroups rs k ++ ((groupResults rs).mergeSort groupLe).drop k =
      (groupResults rs).mergeSort groupLe ∧
    ((groupResults rs).mergeSort groupLe).Perm (groupResults rs) ∧
    ∀ g ∈ matchGroups rs k, ∀ g' ∈ ((groupResults rs).mergeSort groupLe).drop k,
      g'.max_similarity ≤ g.max_similarity := by
  have htrans : ∀ a b c : MatchGroup, groupLe a b = true → groupLe b c = true →
      groupLe a c = true := by
    intro a b c h1 h2
    simp only [groupLe, decide_eq_true_eq] at h1 h2 ⊢
    exact le_trans h2 h1
  have htot : ∀ a b : MatchGroup, (groupLe a b || groupLe b a) = true := by
    intro a b
    simp only [groupLe, Bool.or_eq_true, decide_eq_true_eq]
    exact le_total _ _
  have hsorted := List.sorted_mergeSort htrans htot (groupResults rs)
  have hsorted' : ((groupResults rs).mergeSort groupLe).Pairwise
      (fun a b => b.max_similarity ≤ a.max_similarity) := by
    refine hsorted.imp ?_
    intro a b h
    simpa [groupLe] using h
  refine ⟨?_, ?_, ?_, ?_, ?_⟩
  · simp [matchGroups]
  · exact hsorted'.sublist (List.take_sublist _ _)
  · exact List.take_append_drop k _
  · exact List.mergeSort_perm _ _
  · intro g hg g' hg'
    have hglue : ((groupResults rs).mergeSort groupLe).Pairwise
        (fun a b => b.max_similarity ≤ a.max_similarity) := hsorted'
    rw [← List.take_append_drop k ((groupResults rs).mergeSort groupLe)] at hglue
    exact (List.pairwise_append.mp hglue).2.2 g hg g' hg'

/-! ## Properties of the rounding model (helpers for C1) -/

theorem roundHalfEven_intCast (n : ℤ) : roundHalfEven (n : ℚ) = n := by
  unfold roundHalfEven
  rw [Int.floor_intCast]
  norm_num

theorem le_roundHalfEven (q : ℚ) : ⌊q⌋ ≤ roundHalfEven q := by
  unfold roundHalfEven
  split_ifs <;> omega

theorem roundHalfEven_le (q : ℚ) : roundHalfEven q ≤ ⌊q⌋ + 1 := by
  unfold roundHalfEven
  split_ifs <;> omega

theorem roundHalfEven_mono {q r : ℚ} (h : q ≤ r) :
    roundHalfEven q ≤ roundHalfEven r := by
  rcases lt_or_eq_of_le (Int.floor_mono h) with hf | hf
  · calc roundHalfEven q ≤ ⌊q⌋ + 1 := roundHalfEven_le q
      _ ≤ ⌊r⌋ := by omega
      _ ≤ roundHalfEven r := le_roundHalfEven r
  · unfold roundHalfEven
    rw [hf]
    split_ifs <;> first | omega | linarith

theorem pyRound2_mono {q r : ℚ} (h : q ≤ r) : pyRound2 q ≤ pyRound2 r := by
  unfold pyRound2
  have h1 : roundHalfEven (q * 100) ≤ roundHalfEven (r * 100) :=
    roundHalfEven_mono (by linarith)
  have h2 : ((roundHalfEven (q * 100) : ℤ) : ℚ) ≤
      ((roundHalfEven (r * 100) : ℤ) : ℚ) := by exact_mod_cast h1
  linarith

theorem pyRound2_idem (q : ℚ) : pyRound2 (pyRound2 q) = pyRound2 q := by
  unfold pyRound2
  rw [div_mul_cancel₀ _ (by norm_num : (100 : ℚ) ≠ 0), roundHalfEven_intCast]

theorem pyRound2_zero : pyRound2 0 = 0 := by
  unfold pyRound2
  rw [zero_mul, show ((0 : ℚ)) = ((0 : ℤ) : ℚ) by norm_num, roundHalfEven_intCast]
  norm_num

/-- If `s` lies strictly between `pyRound2 m` and `m`, both round alike. -/
theorem pyRound2_sandwich_lt {m s : ℚ} (h1 : pyRound2 m < s) (h2 : s ≤ m) :
    pyRound2 s = pyRound2 m := by
  refine le_antisymm (pyRound2_mono h2) ?_
  calc pyRound2 m = pyRound2 (pyRound2 m) := (pyRound2_idem m).symm
    _ ≤ pyRound2 s := pyRound2_mono (le_of_lt h1)

/-- If `s` lies strictly between `m` and `pyRound2 m`, both round alike. -/
theorem pyRound2_sandwich_gt {m s : ℚ} (h1 : m < s) (h2 : s ≤ pyRound2 m) :
    pyRound2 s = pyRound2 m := by
  refine le_antisymm ?_ (pyRound2_mono (le_of_lt h1))
  calc pyRound2 s ≤ pyRound2 (pyRound2 m) := pyRound2_mono h2
    _ = pyRound2 m := pyRound2_idem m

/-! ## Structure of the grouping fold (helpers for C1) -/

theorem updateGroup_person_id (g : MatchGroup) (r : SearchResult) :
    (updateGroup g r).person_id = g.person_id := rfl

theorem groupResults_append_singleton (l : List SearchResult) (r : SearchResult) :
    groupResults (l ++ [r]) = insertResult (groupResults l) r := by
  simp [groupResults, List.foldl_append]

theorem insertResult_groupIds (acc : List MatchGroup) (r : SearchResult) :
    groupIds (insertResult acc r) =
      if acc.any (fun g => g.person_id == r.object_id) then groupIds acc
      else groupIds acc ++ [r.object_id] := by
  unfold insertResult groupIds
  split_ifs with h
  · rw [List.map_map]
    apply List.map_congr_left
    intro g _
    simp only [Function.comp_apply]
    split <;> rfl
  · simp [updateGroup, emptyGroup]

theorem mem_groupIds_iff_any (acc : List MatchGroup) (x : String) :
    x ∈ groupIds acc ↔ acc.any (fun g => g.person_id == x) = true := by
  simp only [groupIds, List.mem_map, List.any_eq_true, beq_iff_eq]

/-- The grouping fold produces one group per distinct entity id: the group
ids are duplicate-free and are exactly the entity ids occurring in the
input. -/
theorem groupIds_spec (rs : List SearchResult) :
    (groupIds (groupResults rs)).Nodup ∧
    ∀ x, x ∈ groupIds (groupResults rs) ↔ x ∈ rs.map (·.object_id) := by
  induction rs using List.reverseRecOn with
  | nil => simp [groupResults, groupIds]
  | append_singleton l r ih =>
    rw [groupResults_append_singleton]
    rw [insertResult_groupIds]
    by_cases hany : (groupResults l).any (fun g => g.person_id == r.object_id) = true
    · rw [if_pos hany]
      have hmem : r.object_id ∈ groupIds (groupResults l) :=
        (mem_groupIds_iff_any _ _).mpr hany
      refine ⟨ih.1, ?_⟩
      intro x
      rw [ih.2 x]
      simp only [List.map_append, List.map_cons, List.map_nil, List.mem_append,
        List.mem_singleton]
      constructor
      · intro hx
        exact Or.inl hx
      · rintro (hx | hx)
        · exact hx
        · rw [hx]
          exact (ih.2 _).mp hmem
    · rw [if_neg hany]
      have hnmem : r.object_id ∉ groupIds (groupResults l) := by
        rw [mem_groupIds_iff_any]
        exact hany
      constructor
      · rw [List.nodup_append]
        exact ⟨ih.1, List.nodup_singleton _, by
          intro a ha hb
          rw [List.mem_singleton] at hb
          rw [hb] at ha
          exact hnmem ha⟩
      · intro x
        simp only [List.mem_append, List.mem_singleton, List.map_append,
          List.map_cons, List.map_nil, ih.2 x]

theorem simsOf_append_singleton (l : List SearchResult) (r : SearchResult)
    (pid : String) :
    simsOf (l ++ [r]) pid =
      simsOf l pid ++ if (r.object_id == pid) = true then [r.similarity] else [] := by
  by_cases h : (r.object_id == pid) = true <;>
    simp [simsOf, List.filter_append, List.filter_cons, h]

/-- Each group's member list is exactly the input results with its entity
id, in input order, with similarities rounded to two decimals. -/
theorem groupResults_faces (rs : List SearchResult) :
    ∀ g ∈ groupResults rs,
      g.faces = (rs.filter fun q => q.object_id == g.person_id).map
        (fun q => (q.image_id, pyRound2 q.similarity)) := by
  induction rs using List.reverseRecOn with
  | nil => simp [groupResults]
  | append_singleton l r ih =>
    rw [groupResults_append_singleton]
    intro g hg
    rw [List.filter_append, List.map_append]
    unfold insertResult at hg
    by_cases hany : ((groupResults l).any fun g0 => g0.person_id == r.object_id) = true
    · rw [if_pos hany] at hg
      obtain ⟨g0, hg0, hEq⟩ := List.mem_map.mp hg
      by_cases hp : (g0.person_id == r.object_id) = true
      · rw [if_pos hp] at hEq
        have hEqid : g0.person_id = r.object_id := beq_iff_eq.mp hp
        rw [← hEq]
        simp only [updateGroup]
        rw [ih g0 hg0]
        simp [List.filter_cons, hEqid]
      · rw [if_neg hp] at hEq
        rw [← hEq]
        have hne : (r.object_id == g0.person_id) = false := by
          rw [beq_eq_false_iff_ne]
          intro hco
          rw [beq_iff_eq] at hp
          exact hp hco.symm
        simp [List.filter_cons, hne, ih g0 hg0]
    · rw [if_neg hany] at hg
      simp only [List.any_eq_true, beq_iff_eq, not_exists, not_and] at hany
      rcases List.mem_append.mp hg with hgl | hgnew
      · have hne : (r.object_id == g.person_id) = false := by
          rw [beq_eq_false_iff_ne]
          intro hco
          exact hany g hgl hco.symm
        simp [List.filter_cons, hne, ih g hgl]
      · rw [List.mem_singleton] at hgnew
        rw [hgnew]
        have hnil : (l.filter fun q =>
            q.object_id == (updateGroup (emptyGroup r.object_id) r).person_id) = [] := by
          rw [List.filter_eq_nil_iff]
          intro q hq
          simp only [updateGroup, emptyGroup, beq_iff_eq]
          intro hco
          have hqmem : r.object_id ∈ groupIds (groupResults l) := by
            rw [(groupIds_spec l).2]
            rw [List.mem_map]
            exact ⟨q, hq, hco⟩
          rw [mem_groupIds_iff_any] at hqmem
          simp only [List.any_eq_true, beq_iff_eq] at hqmem
          obtain ⟨g1, hg1, hg1e⟩ := hqmem
          exact hany g1 hg1 hg1e
        rw [hnil]
        simp [updateGroup, emptyGroup, List.filter_cons]

/-- Each group's `max_similarity` is the true maximum similarity among its
entity's input results, rounded to two decimals (for non-negative
similarities, which is the range the engine produces). -/
theorem groupResults_max (rs : List SearchResult)
    (hpos : ∀ r ∈ rs, 0 ≤ r.similarity) :
    ∀ g ∈ groupResults rs, ∃ s, s ∈ simsOf rs g.person_id ∧
      (∀ t ∈ simsOf rs g.person_id, t ≤ s) ∧ g.max_similarity = pyRound2 s := by
  induction rs using List.reverseRecOn with
  | nil => simp [groupResults]
  | append_singleton l r ih =>
    have hposl : ∀ q ∈ l, 0 ≤ q.similarity := fun q hq =>
      hpos q (List.mem_append_left _ hq)
    have hposr : 0 ≤ r.similarity := hpos r (by simp)
    rw [groupResults_append_singleton]
    intro g hg
    unfold insertResult at hg
    by_cases hany : ((groupResults l).any fun g0 => g0.person_id == r.object_id) = true
    · rw [if_pos hany] at hg
      obtain ⟨g0, hg0, hEq⟩ := List.mem_map.mp hg
      by_cases hp : (g0.person_id == r.object_id) = true
      · rw [if_pos hp] at hEq
        have hEqid : g0.person_id = r.object_id := beq_iff_eq.mp hp
        obtain ⟨s0, hs0mem, hs0max, hs0val⟩ := ih hposl g0 hg0
        rw [← hEq]
        simp only [updateGroup]
        have hc : (r.object_id == g0.person_id) = true := beq_iff_eq.mpr hEqid.symm
        rw [simsOf_append_singleton, if_pos hc, hs0val]
        by_cases hlt : pyRound2 s0 < r.similarity
        · rw [if_pos hlt]
          by_cases hcmp : s0 ≤ r.similarity
          · refine ⟨r.similarity, by simp, ?_, rfl⟩
            intro t ht
            rcases List.mem_append.mp ht with h | h
            · exact le_trans (hs0max t h) hcmp
            · rw [List.mem_singleton] at h
              rw [h]
          · push_neg at hcmp
            refine ⟨s0, List.mem_append_left _ hs0mem, ?_, ?_⟩
            · intro t ht
              rcases List.mem_append.mp ht with h | h
              · exact hs0max t h
              · rw [List.mem_singleton] at h
                rw [h]
                exact le_of_lt hcmp
            · exact pyRound2_sandwich_lt hlt (le_of_lt hcmp)
        · rw [if_neg hlt]
          push_neg at hlt
          by_cases hcmp : r.similarity ≤ s0
          · refine ⟨s0, List.mem_append_left _ hs0mem, ?_, rfl⟩
            intro t ht
            rcases List.mem_append.mp ht with h | h
            · exact hs0max t h
            · rw [List.mem_singleton] at h
              rw [h]
              exact hcmp
          · push_neg at hcmp
            refine ⟨r.similarity, by simp, ?_, ?_⟩
            · intro t ht
              rcases List.mem_append.mp ht with h | h
              · exact le_trans (hs0max t h) (le_of_lt hcmp)
              · rw [List.mem_singleton] at h
                rw [h]
            · exact (pyRound2_sandwich_gt hcmp hlt).symm
      · rw [if_neg hp] at hEq
        rw [← hEq]
        have hc : (r.object_id == g0.person_id) = false := by
          rw [beq_eq_false_iff_ne]
          intro hco
          rw [beq_iff_eq] at hp
          exact hp hco.symm
        rw [simsOf_append_singleton, if_neg (by rw [hc]; exact Bool.false_ne_true)]
        simp only [List.append_nil]
        exact ih hposl g0 hg0
    · rw [if_neg hany] at hg
      rcases List.mem_append.mp hg with hgl | hgnew
      · have hanyf := hany
        simp only [List.any_eq_true, beq_iff_eq, not_exists, not_and] at hanyf
        have hc : (r.object_id == g.person_id) = false := by
          rw [beq_eq_false_iff_ne]
          intro hco
          exact hanyf g hgl hco.symm
        rw [simsOf_append_singleton, if_neg (by rw [hc]; exact Bool.false_ne_true)]
        simp only [List.append_nil]
        exact ih hposl g hgl
      · rw [List.mem_singleton] at hgnew
        rw [hgnew]
        simp only [updateGroup, emptyGroup]
        have hnil : simsOf l r.object_id = [] := by
          rw [simsOf]
          have hfil : (l.filter fun q => q.object_id == r.object_id) = [] := by
            rw [List.filter_eq_nil_iff]
            intro q hq
            simp only [beq_iff_eq]
            intro hco
            have hqmem : r.object_id ∈ groupIds (groupResults l) := by
              rw [(groupIds_spec l).2, List.mem_map]
              exact ⟨q, hq, hco⟩
            rw [mem_groupIds_iff_any] at hqmem
            exact hany hqmem
          rw [hfil, List.map_nil]
        rw [simsOf_append_singleton, hnil, if_pos (beq_self_eq_true r.object_id)]
        simp only [List.nil_append]
        refine ⟨r.similarity, by simp, ?_, ?_⟩
        · intro t ht
          rw [List.mem_singleton] at ht
          rw [ht]
        · by_cases h0 : (0 : ℚ) < r.similarity
          · rw [if_pos h0]
          · rw [if_neg h0]
            have h00 : r.similarity = 0 := le_antisymm (not_lt.mp h0) hposr
            rw [h00, pyRound2_zero]

theorem updateAll_allFaces (acc : List MatchGroup) (r : SearchResult)
    (hnd : (groupIds acc).Nodup)
    (hany : (acc.any fun g => g.person_id == r.object_id) = true) :
    (allFaces (acc.map fun g =>
        if g.person_id == r.object_id then updateGroup g r else g)).Perm
      (allFaces acc ++ [(r.image_id, pyRound2 r.similarity)]) := by
  induction acc with
  | nil => simp at hany
  | cons g0 gs ihacc =>
    rw [List.map_cons]
    by_cases hp : (g0.person_id == r.object_id) = true
    · rw [if_pos hp]
      have hg0nd : g0.person_id ∉ groupIds gs := by
        have : (groupIds (g0 :: gs)) = g0.person_id :: groupIds gs := by
          simp [groupIds]
        rw [this] at hnd
        exact (List.nodup_cons.mp hnd).1
      have hmap : (gs.map fun g =>
          if g.person_id == r.object_id then updateGroup g r else g) = gs := by
        have hcong : ∀ g ∈ gs,
            (if g.person_id == r.object_id then updateGroup g r else g) = g := by
          intro g hgmem
          have hne : (g.person_id == r.object_id) = false := by
            rw [beq_eq_false_iff_ne]
            intro hco
            apply hg0nd
            rw [beq_iff_eq] at hp
            rw [groupIds, List.mem_map]
            exact ⟨g, hgmem, by rw [hco, hp]⟩
          rw [hne]
          simp
        calc (gs.map fun g =>
            if g.person_id == r.object_id then updateGroup g r else g)
            = gs.map id := List.map_congr_left hcong
          _ = gs := List.map_id gs
      rw [hmap]
      simp only [allFaces, List.map_cons, List.flatten_cons, updateGroup]
      rw [List.append_assoc, List.append_assoc]
      exact List.Perm.append_left _ List.perm_append_comm
    · rw [if_neg hp]
      have hany' : (gs.any fun g => g.person_id == r.object_id) = true := by
        simp only [List.any_cons, hp, Bool.false_or] at hany
        exact hany
      have hnd' : (groupIds gs).Nodup := by
        have : (groupIds (g0 :: gs)) = g0.person_id :: groupIds gs := by
          simp [groupIds]
        rw [this] at hnd
        exact (List.nodup_cons.mp hnd).2
      have ihr := ihacc hnd' hany'
      simp only [allFaces, List.map_cons, List.flatten_cons] at ihr ⊢
      rw [List.append_assoc]
      exact List.Perm.append_left _ ihr

theorem insertResult_allFaces (acc : List MatchGroup) (r : SearchResult)
    (hnd : (groupIds acc).Nodup) :
    (allFaces (insertResult acc r)).Perm
      (allFaces acc ++ [(r.image_id, pyRound2 r.similarity)]) := by
  unfold insertResult
  split_ifs with hany
  · exact updateAll_allFaces acc r hnd hany
  · have heq : allFaces (acc ++ [updateGroup (emptyGroup r.object_id) r]) =
        allFaces acc ++ [(r.image_id, pyRound2 r.similarity)] := by
      simp [allFaces, updateGroup, emptyGroup]
    rw [heq]

/-- The members of all groups taken together are a permutation of the input
results (no drops, no duplicates). -/
theorem allFaces_perm (rs : List SearchResult) :
    ((allFaces (groupResults rs)).map Prod.fst).Perm (rs.map (·.image_id)) := by
  induction rs using List.reverseRecOn with
  | nil => simp [groupResults, allFaces]
  | append_singleton l r ih =>
    rw [groupResults_append_singleton]
    have h2 := (insertResult_allFaces (groupResults l) r (groupIds_spec l).1).map Prod.fst
    rw [List.map_append] at h2
    refine h2.trans ?_
    rw [List.map_append]
    exact List.Perm.append_right _ ih

/-! ## C1: grouping correctness (corrected)

The grouping does produce one group per distinct entity id and preserves the
member multiset, but `max_similarity` is the true maximum **rounded to two
decimals** (`round(result.similarity, 2)`), not the true maximum itself. -/

/-- C1, counterexample to the claim as stated: a single result with
similarity 0.876 for entity "X" yields a group whose `max_similarity` is
0.88 — not the true maximum 0.876 of that id's results. -/
theorem grouping_rounding_cex :
    maxSims (groupResults [⟨"imgA", "X", 876/1000⟩]) = [22/25] ∧
    simsOf [⟨"imgA", "X", 876/1000⟩] "X" = [876/1000] ∧
    (22/25 : ℚ) ≠ 876/1000 := by
  have hr : pyRound2 (876/1000) = 22/25 := by
    unfold pyRound2 roundHalfEven
    norm_num
  refine ⟨?_, ?_, by norm_num⟩
  · simp only [maxSims, groupResults, List.foldl_cons, List.foldl_nil,
      insertResult, updateGroup, emptyGroup, List.any_nil, Bool.false_eq_true,
      if_false, List.nil_append, List.map_cons, List.map_nil]
    rw [if_pos (by norm_num : (0 : ℚ) < 876/1000), hr]
  · simp [simsOf]

/-- C1, amended: grouping a flat result list produces exactly one group per
distinct entity id (duplicate-free group ids, covering exactly the input's
entity ids); each group's member list is exactly that id's input results (so
the union of all members is the input, with no drops and no duplicates); and
each group's `max_similarity` equals the true maximum similarity of that
id's results rounded to two decimals (given non-negative similarities, the
engine's range). -/
theorem grouping_correct (rs : List SearchResult)
    (hpos : ∀ r ∈ rs, 0 ≤ r.similarity) :
    (groupIds (groupResults rs)).Nodup ∧
    (∀ x, x ∈ groupIds (groupResults rs) ↔ x ∈ rs.map (·.object_id)) ∧
    (∀ g ∈ groupResults rs,
      g.faces = (rs.filter fun q => q.object_id == g.person_id).map
        (fun q => (q.image_id, pyRound2 q.similarity))) ∧
    (∀ g ∈ groupResults rs, ∃ s, s ∈ simsOf rs g.person_id ∧
      (∀ t ∈ simsOf rs g.person_id, t ≤ s) ∧ g.max_similarity = pyRound2 s) ∧
    ((allFaces (groupResults rs)).map Prod.fst).Perm (rs.map (·.image_id)) :=
  ⟨(groupIds_spec rs).1, (groupIds_spec rs).2, groupResults_faces rs,
   groupResults_max rs hpos, allFaces_perm rs⟩

/-- Witness for the amended C1 on two results sharing entity "X". -/
theorem grouping_correct_witness :
    (groupIds (groupResults [⟨"a", "X", 1/2⟩, ⟨"b", "X", 3/4⟩])).Nodup ∧
    (∀ x, x ∈ groupIds (groupResults [⟨"a", "X", 1/2⟩, ⟨"b", "X", 3/4⟩]) ↔
      x ∈ [SearchResult.mk "a" "X" (1/2), SearchResult.mk "b" "X" (3/4)].map
        (·.object_id)) ∧
    (∀ g ∈ groupResults [⟨"a", "X", 1/2⟩, ⟨"b", "X", 3/4⟩],
      g.faces = ([SearchResult.mk "a" "X" (1/2),
          SearchResult.mk "b" "X" (3/4)].filter fun q =>
            q.object_id == g.person_id).map
        (fun q => (q.image_id, pyRound2 q.similarity))) ∧
    (∀ g ∈ groupResults [⟨"a", "X", 1/2⟩, ⟨"b", "X", 3/4⟩], ∃ s,
      s ∈ simsOf [⟨"a", "X", 1/2⟩, ⟨"b", "X", 3/4⟩] g.person_id ∧
      (∀ t ∈ simsOf [⟨"a", "X", 1/2⟩, ⟨"b", "X", 3/4⟩] g.person_id, t ≤ s) ∧
      g.max_similarity = pyRound2 s) ∧
    ((allFaces (groupResults [⟨"a", "X", 1/2⟩, ⟨"b", "X", 3/4⟩])).map
        Prod.fst).Perm
      ([SearchResult.mk "a" "X" (1/2), SearchResult.mk "b" "X" (3/4)].map
        (·.image_id)) :=
  grouping_correct [⟨"a", "X", 1/2⟩, ⟨"b", "X", 3/4⟩] (by
    intro r hr
    rcases List.mem_cons.mp hr with h | h
    · rw [h]
      norm_num
    · rw [List.mem_singleton] at h
      rw [h]
      norm_num)

/-! ## C9: the liveness crop box stays inside the image -/

theorem truncToInt_nonneg {q : ℚ} (h : 0 ≤ q) : 0 ≤ truncToInt q := by
  unfold truncToInt
  rw [if_neg (not_lt.mpr h)]
  exact Int.floor_nonneg.mpr h

theorem truncToInt_mono {q r : ℚ} (hq : 0 ≤ q) (h : q ≤ r) :
    truncToInt q ≤ truncToInt r := by
  unfold truncToInt
  rw [if_neg (not_lt.mpr hq), if_neg (not_lt.mpr (le_trans hq h))]
  exact Int.floor_mono h

theorem truncToInt_le_int {q : ℚ} (n : ℤ) (hq : 0 ≤ q) (h : q ≤ (n : ℚ)) :
    truncToInt q ≤ n := by
  unfold truncToInt
  rw [if_neg (not_lt.mpr hq)]
  have hf := Int.floor_mono h
  rwa [Int.floor_intCast] at hf

/-- The per-axis clamping: a nonnegative-length interval no longer than the
image keeps, after both shifts, both ends inside `[0, bound]`. -/
theorem shift_bounds (a b bound : ℚ) (h0 : 0 ≤ b - a) (hlen : b - a ≤ bound)
    (_hb : 0 ≤ bound) :
    0 ≤ (shiftHigh bound (shiftLow (a, b))).1 ∧
    (shiftHigh bound (shiftLow (a, b))).1 ≤ (shiftHigh bound (shiftLow (a, b))).2 ∧
    (shiftHigh bound (shiftLow (a, b))).2 ≤ bound := by
  unfold shiftLow shiftHigh
  split_ifs with h1 h2 h3 <;> dsimp only at * <;>
    refine ⟨by linarith, by linarith, by linarith⟩

/-- C9: for an image of width `src_w ≥ 2` and height `src_h ≥ 2`, a face box
`[x, y, w, h]` with `w, h ≥ 1` lying inside the image, and a positive
crop-expansion scale, `_get_new_box` yields integer coordinates with
`0 ≤ left_x ≤ right_x ≤ src_w - 1` and `0 ≤ top_y ≤ bottom_y ≤ src_h - 1`,
so the crop `img[top_y : bottom_y+1, left_x : right_x+1]` is a non-empty
in-bounds region. -/
theorem crop_box_bounds (src_w src_h : ℤ) (x y box_w box_h scale : ℚ)
    (hsw : 2 ≤ src_w) (hsh : 2 ≤ src_h) (hw : 1 ≤ box_w) (hh : 1 ≤ box_h)
    (_hx : 0 ≤ x) (_hy : 0 ≤ y) (_hxw : x + box_w ≤ (src_w : ℚ))
    (_hyh : y + box_h ≤ (src_h : ℚ)) (hs : 0 < scale) :
    0 ≤ (getNewBox src_w src_h x y box_w box_h scale).1 ∧
    (getNewBox src_w src_h x y box_w box_h scale).1 ≤
      (getNewBox src_w src_h x y box_w box_h scale).2.2.1 ∧
    (getNewBox src_w src_h x y box_w box_h scale).2.2.1 ≤ src_w - 1 ∧
    0 ≤ (getNewBox src_w src_h x y box_w box_h scale).2.1 ∧
    (getNewBox src_w src_h x y box_w box_h scale).2.1 ≤
      (getNewBox src_w src_h x y box_w box_h scale).2.2.2 ∧
    (getNewBox src_w src_h x y box_w box_h scale).2.2.2 ≤ src_h - 1 := by
  have hw0 : (0 : ℚ) < box_w := lt_of_lt_of_le one_pos hw
  have hh0 : (0 : ℚ) < box_h := lt_of_lt_of_le one_pos hh
  have hswq : (2 : ℚ) ≤ (src_w : ℚ) := by exact_mod_cast hsw
  have hshq : (2 : ℚ) ≤ (src_h : ℚ) := by exact_mod_cast hsh
  simp only [getNewBox]
  set s1 := min ((src_h - 1 : ℚ) / box_h) (min ((src_w - 1 : ℚ) / box_w) scale)
    with hs1def
  have hs1pos : 0 < s1 := by
    apply lt_min
    · exact div_pos (by linarith) hh0
    · exact lt_min (div_pos (by linarith) hw0) hs
  have hnw_le : box_w * s1 ≤ (src_w : ℚ) - 1 := by
    have h1 : s1 ≤ (src_w - 1 : ℚ) / box_w :=
      le_trans (min_le_right _ _) (min_le_left _ _)
    calc box_w * s1 ≤ box_w * ((src_w - 1 : ℚ) / box_w) :=
          mul_le_mul_of_nonneg_left h1 (le_of_lt hw0)
      _ = (src_w : ℚ) - 1 := by field_simp
  have hnh_le : box_h * s1 ≤ (src_h : ℚ) - 1 := by
    have h1 : s1 ≤ (src_h - 1 : ℚ) / box_h := min_le_left _ _
    calc box_h * s1 ≤ box_h * ((src_h - 1 : ℚ) / box_h) :=
          mul_le_mul_of_nonneg_left h1 (le_of_lt hh0)
      _ = (src_h : ℚ) - 1 := by field_simp
  have hnw0 : 0 ≤ box_w * s1 := le_of_lt (mul_pos hw0 hs1pos)
  have hnh0 : 0 ≤ box_h * s1 := le_of_lt (mul_pos hh0 hs1pos)
  obtain ⟨ha1, ha2, ha3⟩ :=
    shift_bounds (box_w / 2 + x - box_w * s1 / 2) (box_w / 2 + x + box_w * s1 / 2)
      ((src_w : ℚ) - 1) (by linarith) (by linarith) (by linarith)
  obtain ⟨hb1, hb2, hb3⟩ :=
    shift_bounds (box_h / 2 + y - box_h * s1 / 2) (box_h / 2 + y + box_h * s1 / 2)
      ((src_h : ℚ) - 1) (by linarith) (by linarith) (by linarith)
  refine ⟨truncToInt_nonneg ha1, truncToInt_mono ha1 ha2, ?_,
    truncToInt_nonneg hb1, truncToInt_mono hb1 hb2, ?_⟩
  · refine truncToInt_le_int (src_w - 1) (le_trans ha1 ha2) ?_
    push_cast
    exact ha3
  · refine truncToInt_le_int (src_h - 1) (le_trans hb1 hb2) ?_
    push_cast
    exact hb3

/-- Witness for C9: a 100×80 image, box `[10, 10, 20, 30]`, scale 2.7. -/
theorem crop_box_bounds_witness :
    0 ≤ (getNewBox 100 80 10 10 20 30 (27/10)).1 ∧
    (getNewBox 100 80 10 10 20 30 (27/10)).1 ≤
      (getNewBox 100 80 10 10 20 30 (27/10)).2.2.1 ∧
    (getNewBox 100 80 10 10 20 30 (27/10)).2.2.1 ≤ 100 - 1 ∧
    0 ≤ (getNewBox 100 80 10 10 20 30 (27/10)).2.1 ∧
    (getNewBox 100 80 10 10 20 30 (27/10)).2.1 ≤
      (getNewBox 100 80 10 10 20 30 (27/10)).2.2.2 ∧
    (getNewBox 100 80 10 10 20 30 (27/10)).2.2.2 ≤ 80 - 1 :=
  crop_box_bounds 100 80 10 10 20 30 (27/10) (by norm_num) (by norm_num)
    (by norm_num) (by norm_num) (by norm_num) (by norm_num) (by norm_num)
    (by norm_num) (by norm_num)

end KoalaqVision
